import Mathlib

/-!
Verification of the wall / polygon geometry core of the `libroom` engine
(`wall.cpp` / `wall.hpp`).  The geometric code uses only field operations
and order comparisons on `float`, so its floats are modelled as exact
rationals (`ℚ`), which keeps every definition executable with the same
branch structure as over any ordered field; the acoustic-coefficient
derivation uses `sqrt` and is modelled over `ℝ`.  C++ `int` return codes
become `Int`, fallible constructors return `Except`.
The external geometry primitives (`intersection_3d_segment_plane`,
`is_inside_2d_polygon`, segment-segment intersection) live in
`geometry.cpp` and are consumed as black boxes; here the intersection
routines are parametrised over them, so every theorem about the
combination logic holds for an arbitrary implementation of the
primitives.
-/

namespace Libroom

/-- 3D point / vector (`Eigen::Matrix<float,3,1>` modelled over ℚ). -/
abbrev Vec3 : Type := ℚ × ℚ × ℚ

/-- 2D point / vector (`Eigen::Matrix<float,2,1>` modelled over ℚ). -/
abbrev Vec2 : Type := ℚ × ℚ

/-- First coordinate of a 3D vector. -/
def Vec3.x (v : Vec3) : ℚ := v.1

/-- Second coordinate of a 3D vector. -/
def Vec3.y (v : Vec3) : ℚ := v.2.1

/-- Third coordinate of a 3D vector. -/
def Vec3.z (v : Vec3) : ℚ := v.2.2

/-- Componentwise difference of two 3D vectors. -/
def vsub3 (a b : Vec3) : Vec3 := (a.x - b.x, a.y - b.y, a.z - b.z)

/-- Euclidean inner product on 3D vectors (`u.adjoint() * v`). -/
def dot3 (a b : Vec3) : ℚ := a.x * b.x + a.y * b.y + a.z * b.z

/-- Modelled from the spec: the "small cross-product helper for 3D
vectors" (`cross` in `geometry.cpp`, not under `src/`), the standard
cross product. -/
def cross (u v : Vec3) : Vec3 :=
  (u.y * v.z - u.z * v.y, u.z * v.x - u.x * v.z, u.x * v.y - u.y * v.x)

/-- The tolerance constant `libroom_eps`.  Modelled from the spec:
declared `extern` in `wall.hpp` and defined in `common.hpp` (not under
`src/`); the spec gives "a small positive constant ~1e-5 scale",
written here as the exact rational 1/100000. -/
def libroom_eps : ℚ := 1 / 100000

/-- 2D cross product of two points, the summand of the shoelace formula. -/
def cross2 (a b : Vec2) : ℚ := a.1 * b.2 - a.2 * b.1

/-- Sum of the shoelace terms of the cyclic edge walk that starts at the
head of the list and closes back at `first`. -/
def shoelaceTerms (first : Vec2) : List Vec2 → ℚ
  | [] => 0
  | [a] => cross2 a first
  | a :: b :: rest => cross2 a b + shoelaceTerms first (b :: rest)

/-- Modelled from the spec: `area_2d_polygon` (`geometry.cpp`, not under
`src/`), specified as the signed area of a 2D polygon ("polygon_area_2d
(corners_2d) → float (signed)"): the shoelace formula. -/
def area_2d_polygon (cs : List Vec2) : ℚ :=
  match cs with
  | [] => 0
  | c :: _ => shoelaceTerms c cs / 2

/-- The result of `Eigen::JacobiSVD` on the centered corner matrix
(`corners.colwise() - origin`), consumed abstractly: `u0`, `u1`, `u2`
are the three columns of `matrixU`, `s2` is `singularValues().coeff(2)`
(the smallest singular value).  Eigen is an external library, so the
decomposition itself is an input of the model. -/
structure SVDResult where
  u0 : Vec3
  u1 : Vec3
  u2 : Vec3
  s2 : ℚ
  deriving DecidableEq

/-- A planar polygon with a fitted 2D basis (`SimplePolygon` of
`wall.hpp`). -/
structure SimplePolygon where
  corners : List Vec3
  origin : Vec3
  basis0 : Vec3
  basis1 : Vec3
  normal : Vec3
  flat_corners : List Vec2
  deriving DecidableEq

/-- Swap the two coordinates of a 2D point.  This is the effect of
`flat_corners.colwise().reverseInPlace()` on one column of the 2-row
matrix `flat_corners` (each column is reversed vertically). -/
def swap2 (q : Vec2) : Vec2 := (q.2, q.1)

/-- Projection of the centered corners onto the two basis vectors:
`basis.adjoint() * (corners.colwise() - origin)`, one column per corner. -/
def flatProject (b0 b1 : Vec3) (cs : List Vec3) (o : Vec3) : List Vec2 :=
  cs.map (fun c => (dot3 b0 (vsub3 c o), dot3 b1 (vsub3 c o)))

/-- The `SimplePolygon(corners, origin)` constructor (`wall.cpp` lines
60-100) with the Eigen SVD of the centered corner matrix supplied as an
abstract input.  Throwing `std::runtime_error` is modelled as
`Except.error`.  If the signed area in the flattened frame is negative,
`basis.rowwise().reverseInPlace()` swaps the two basis columns and
`flat_corners.colwise().reverseInPlace()` reverses each 2-entry column,
i.e. swaps the two coordinate rows; finally the normal is recomputed as
the cross product of the (possibly swapped) basis vectors. -/
def simplePolygonMk (corners : List Vec3) (origin : Vec3) (svd : SVDResult) :
    Except String SimplePolygon :=
  if svd.s2 > libroom_eps then
    .error "The corners of the polygon do not lie in a plane"
  else
    let basis0 := svd.u0
    let basis1 := svd.u1
    let flat_corners := flatProject basis0 basis1 corners origin
    let a := area_2d_polygon flat_corners
    let fixed := if a < 0 then (basis1, basis0, flat_corners.map swap2)
                 else (basis0, basis1, flat_corners)
    .ok { corners := corners, origin := origin,
          basis0 := fixed.1, basis1 := fixed.2.1,
          normal := cross fixed.1 fixed.2.1,
          flat_corners := fixed.2.2 }

/-- `SimplePolygon::area()` (`wall.cpp` lines 123-126). -/
def SimplePolygon.area (p : SimplePolygon) : ℚ :=
  area_2d_polygon p.flat_corners

/-- The two external geometry primitives consumed by
`SimplePolygon::intersection` (`geometry.cpp`, out of scope): segment vs
plane intersection returning a status in `{-1, 0, 1}` together with the
intersection point, and the 2D point-in-polygon classification returning
`<0` (outside), `0` (inside) or `1` (boundary).  All theorems below are
quantified over an arbitrary implementation. -/
structure GeomPrims where
  intersection_3d_segment_plane : Vec3 → Vec3 → Vec3 → Vec3 → Int × Vec3
  is_inside_2d_polygon : Vec2 → List Vec2 → Int

/-- `SimplePolygon::intersection` (`wall.cpp` lines 137-191): intersect
the segment with the supporting plane, project the intersection point
into the plane basis, classify it against `flat_corners`; combine the
endpoint flag (bit 1) and the boundary flag (bit 2, `ret |= 2`). -/
def SimplePolygon.intersection (g : GeomPrims) (poly : SimplePolygon)
    (p1 p2 : Vec3) : Int :=
  let r1 := g.intersection_3d_segment_plane p1 p2 poly.origin poly.normal
  if r1.1 = -1 then -1
  else
    let ret : Int := if r1.1 = 1 then 1 else 0
    let flat_intersection : Vec2 :=
      (dot3 poly.basis0 (vsub3 r1.2 poly.origin),
       dot3 poly.basis1 (vsub3 r1.2 poly.origin))
    let ret2 := g.is_inside_2d_polygon flat_intersection poly.flat_corners
    if ret2 < 0 then -1
    else if ret2 = 1 then Int.lor ret 2
    else ret

/-- An outer polygon with a list of polygonal holes (`PolygonWithHole`
of `wall.hpp`). -/
structure PolygonWithHole where
  outer_polygon : SimplePolygon
  inner_polygons : List SimplePolygon
  deriving DecidableEq

/-- The `for` loop over the holes in `PolygonWithHole::intersection`
(`wall.cpp` lines 211-224): a hole hit with status `0` or `1` returns
`-1` at once, a boundary hit (`≥ 2`) is returned at once, otherwise the
next hole is tried; when no hole intercepts, the outer status stands. -/
def holeLoop (g : GeomPrims) (p1 p2 : Vec3) (outerRet : Int) :
    List SimplePolygon → Int
  | [] => outerRet
  | h :: hs =>
    let ret2 := h.intersection g p1 p2
    if ret2 = 0 ∨ ret2 = 1 then -1
    else if ret2 ≥ 2 then ret2
    else holeLoop g p1 p2 outerRet hs

/-- `PolygonWithHole::intersection` (`wall.cpp` lines 193-226). -/
def PolygonWithHole.intersection (g : GeomPrims) (p : PolygonWithHole)
    (p1 p2 : Vec3) : Int :=
  let ret1 := p.outer_polygon.intersection g p1 p2
  if ret1 = -1 then ret1
  else if ret1 ≥ 2 then ret1
  else holeLoop g p1 p2 ret1 p.inner_polygons

/-- Written from the specification's words (refinement target for the
hole logic): scan the hole statuses in stored order; the first status
`0` or `1` yields `NONE`, the first status `≥ 2` is returned, and if no
hole intercepts the outer status is returned. -/
def holeScanSpec (outerRet : Int) : List Int → Int
  | [] => outerRet
  | r :: rs => if r = 0 ∨ r = 1 then -1
               else if r ≥ 2 then r
               else holeScanSpec outerRet rs

/-- Written from the specification's words (refinement target): the
overall hole-aware combination — `NONE` propagates, a boundary-flagged
outer status is returned unchanged, otherwise the holes are scanned. -/
def pwhCombineSpec (outerRet : Int) (holeRets : List Int) : Int :=
  if outerRet = -1 then -1
  else if outerRet ≥ 2 then outerRet
  else holeScanSpec outerRet holeRets

/-- The closed two-variant polygon hierarchy (`Polygon` of `wall.hpp`),
as a sum type; the C++ `dynamic_cast` type tests become constructor
matches. -/
inductive Polygon where
  | simple : SimplePolygon → Polygon
  | withHole : PolygonWithHole → Polygon

/-- `(corners - other.corners).cwiseAbs().sum()`: the sum over all
matrix entries of the absolute coordinate differences. -/
def sumAbsDiff (a b : List Vec3) : ℚ :=
  ((a.zip b).map
    (fun q => |q.1.x - q.2.x| + |q.1.y - q.2.y| + |q.1.z - q.2.z|)).sum

/-- `SimplePolygon::same_as` (`wall.cpp` lines 228-250): the dynamic
cast to `SimplePolygon` must succeed, the corner counts must agree and
the sum of absolute coordinate differences must be exactly zero. -/
def SimplePolygon.same_as (p : SimplePolygon) (that : Polygon) : Bool :=
  match that with
  | .simple other =>
    if p.corners.length ≠ other.corners.length then false
    else sumAbsDiff p.corners other.corners == 0
  | .withHole _ => false

/-- The indexed `for` loop of `PolygonWithHole::same_as`, run after the
length check: every index-aligned pair of holes must match. -/
def holesAllMatch (xs ys : List SimplePolygon) : Bool :=
  (xs.zip ys).all (fun q => q.1.same_as (.simple q.2))

/-- `PolygonWithHole::same_as` (`wall.cpp` lines 252-289): the dynamic
cast to `PolygonWithHole` must succeed, the outer polygons must match,
the hole counts must agree and the holes must match index by index. -/
def PolygonWithHole.same_as (p : PolygonWithHole) (that : Polygon) : Bool :=
  match that with
  | .withHole other =>
    if ¬ p.outer_polygon.same_as (.simple other.outer_polygon) then false
    else if p.inner_polygons.length ≠ other.inner_polygons.length then false
    else holesAllMatch p.inner_polygons other.inner_polygons
  | .simple _ => false

/-- Virtual dispatch of `same_as` over the polygon hierarchy. -/
def Polygon.same_as : Polygon → Polygon → Bool
  | .simple p, that => p.same_as that
  | .withHole p, that => p.same_as that

/-- A `D`-dimensional point / vector for the dimension-generic wall
(`Vectorf<D>`). -/
abbrev Vecf (d : ℕ) : Type := Fin d → ℚ

/-- Euclidean inner product on `D`-dimensional vectors. -/
def dotf {d : ℕ} (a b : Vecf d) : ℚ := ∑ i, a i * b i

/-- The dimension-generic wall `Wall<D>` (`wall.hpp`): per-band acoustic
coefficients together with the geometric fields used by the generic
utilities.  The coefficient arrays live over `ℝ` because `transmission`
is derived with `sqrt`. -/
structure Wall (d : ℕ) where
  absorption : List ℝ
  scatter : List ℝ
  name : String
  transmission : List ℝ
  energy_reflection : List ℝ
  normal : Vecf d
  origin : Vecf d
  corners : List (Vecf d)

/-- `energy_reflection = 1.f - absorption` (`wall.cpp` line 301). -/
def energy_reflection_of (absorption : List ℝ) : List ℝ :=
  absorption.map (fun a => 1 - a)

/-- `transmission = energy_reflection.sqrt()` (`wall.cpp` line 303). -/
noncomputable def transmission_of (absorption : List ℝ) : List ℝ :=
  (energy_reflection_of absorption).map Real.sqrt

/-- `Wall<D>::init()` (`wall.cpp` lines 296-309): derive
`energy_reflection` and `transmission` from `absorption` and fail when
the absorption and scatter arrays have different lengths.  The thrown
`std::runtime_error` is modelled as `Except.error`. -/
noncomputable def wallInit (absorption scatter : List ℝ) :
    Except String (List ℝ × List ℝ) :=
  let energy_reflection := energy_reflection_of absorption
  let transmission := transmission_of absorption
  if absorption.length ≠ scatter.length then
    .error "The number of absorption and scattering coefficients is different"
  else
    .ok (energy_reflection, transmission)

/-- The `Wall<D>` constructor (`wall.cpp` lines 311-320), which stores
the corners and coefficients and runs `init()`; `origin` and `normal`
are the values filled in by the concrete `Wall2D` / `Wall3D`
constructors (their geometric derivation is outside this model).  A
failing `init()` destroys the object: no wall is produced. -/
noncomputable def wallMk (d : ℕ) (corners : List (Vecf d))
    (origin normal : Vecf d) (absorption scatter : List ℝ)
    (name : String) : Except String (Wall d) :=
  match wallInit absorption scatter with
  | .error e => .error e
  | .ok er_tr =>
    .ok { absorption := absorption, scatter := scatter, name := name,
          transmission := er_tr.2, energy_reflection := er_tr.1,
          normal := normal, origin := origin, corners := corners }

/-- The signed distance computed inside `Wall<D>::reflect`
(`wall.cpp` line 432): `normal.adjoint() * (origin - p)`. -/
def Wall.wallDistance {d : ℕ} (w : Wall d) (p : Vecf d) : ℚ :=
  dotf w.normal (fun i => w.origin i - p i)

/-- `Wall<D>::reflect` (`wall.cpp` lines 415-443): reflect `p` across
the wall plane and classify the side of `p` by the sign of the distance,
gated by `libroom_eps`.  The C++ output parameter becomes the second
component of the result. -/
def Wall.reflect {d : ℕ} (w : Wall d) (p : Vecf d) : Int × Vecf d :=
  let distance_wall2p := w.wallDistance p
  let p_reflected : Vecf d := fun i => p i + 2 * distance_wall2p * w.normal i
  (if distance_wall2p > libroom_eps then 1
   else if distance_wall2p < -libroom_eps then -1
   else 0,
   p_reflected)

/-- `Wall<D>::side` (`wall.cpp` lines 447-459): the sign of
`(p - origin).adjoint() * normal`, gated by `libroom_eps`. -/
def Wall.side {d : ℕ} (w : Wall d) (p : Vecf d) : Int :=
  let ip := dotf (fun i => p i - w.origin i) w.normal
  if ip > libroom_eps then 1
  else if ip < -libroom_eps then -1
  else 0

/-- The status `ret1` of the segment-plane primitive inside
`SimplePolygon::intersection` (`wall.cpp` line 170). -/
def planeRet (g : GeomPrims) (poly : SimplePolygon) (p1 p2 : Vec3) : Int :=
  (g.intersection_3d_segment_plane p1 p2 poly.origin poly.normal).1

/-- The plane-intersection point written into the output buffer by the
segment-plane primitive. -/
def planePoint (g : GeomPrims) (poly : SimplePolygon) (p1 p2 : Vec3) : Vec3 :=
  (g.intersection_3d_segment_plane p1 p2 poly.origin poly.normal).2

/-- `flat_intersection` (`wall.cpp` line 179): the plane-intersection
point projected into the 2D plane basis. -/
def flatIntersectionOf (g : GeomPrims) (poly : SimplePolygon)
    (p1 p2 : Vec3) : Vec2 :=
  (dot3 poly.basis0 (vsub3 (planePoint g poly p1 p2) poly.origin),
   dot3 poly.basis1 (vsub3 (planePoint g poly p1 p2) poly.origin))

/-- `ret2` (`wall.cpp` line 182): the 2D point-in-polygon classification
of the projected intersection point. -/
def insideRet (g : GeomPrims) (poly : SimplePolygon) (p1 p2 : Vec3) : Int :=
  g.is_inside_2d_polygon (flatIntersectionOf g poly p1 p2) poly.flat_corners

theorem shoelaceTerms_map_swap2 (f : Vec2) (l : List Vec2) :
    shoelaceTerms (swap2 f) (l.map swap2) = - shoelaceTerms f l := by
  induction l with
  | nil => simp [shoelaceTerms]
  | cons a t ih =>
    cases t with
    | nil =>
      simp only [List.map_cons, List.map_nil, shoelaceTerms, cross2, swap2]
      ring
    | cons b r =>
      simp only [List.map_cons, shoelaceTerms] at ih ⊢
      rw [show (swap2 b :: r.map swap2) = (b :: r).map swap2 from rfl] at *
      rw [ih]
      simp only [cross2, swap2]
      ring

theorem area_2d_polygon_map_swap2 (l : List Vec2) :
    area_2d_polygon (l.map swap2) = - area_2d_polygon l := by
  cases l with
  | nil => simp [area_2d_polygon]
  | cons c cs =>
    show shoelaceTerms (swap2 c) ((c :: cs).map swap2) / 2
        = - (shoelaceTerms c (c :: cs) / 2)
    rw [shoelaceTerms_map_swap2]
    ring

/-- C5: `SimplePolygon` construction fails (and produces no polygon)
exactly when the smallest singular value of the centered corner matrix
exceeds the tolerance `libroom_eps`; within tolerance it succeeds. -/
theorem claim_C5_planarity_gate (c : List Vec3) (o : Vec3) (svd : SVDResult) :
    ((∃ e, simplePolygonMk c o svd = .error e) ↔ svd.s2 > libroom_eps) ∧
    (svd.s2 ≤ libroom_eps → ∃ p, simplePolygonMk c o svd = .ok p) := by
  constructor
  · constructor
    · rintro ⟨e, he⟩
      by_contra h
      unfold simplePolygonMk at he
      rw [if_neg h] at he
      simp at he
    · intro h
      exact ⟨_, by unfold simplePolygonMk; rw [if_pos h]⟩
  · intro h
    have h2 : ¬ svd.s2 > libroom_eps := not_lt.mpr h
    exact ⟨_, by unfold simplePolygonMk; rw [if_neg h2]⟩

/-- Witness for C5 at a concrete input: a zero smallest singular value
is within tolerance and construction succeeds. -/
theorem claim_C5_planarity_gate_witness :
    (SVDResult.mk ((1:ℚ),0,0) ((0:ℚ),1,0) ((0:ℚ),0,1) 0).s2 ≤ libroom_eps ∧
    ∃ p, simplePolygonMk [] ((0:ℚ),0,0)
      (SVDResult.mk ((1:ℚ),0,0) ((0:ℚ),1,0) ((0:ℚ),0,1) 0) = .ok p :=
  ⟨by norm_num [libroom_eps],
   (claim_C5_planarity_gate [] ((0:ℚ),0,0)
      (SVDResult.mk ((1:ℚ),0,0) ((0:ℚ),1,0) ((0:ℚ),0,1) 0)).2
     (by norm_num [libroom_eps])⟩

/-- C7: every successfully constructed `SimplePolygon` has
`area() ≥ 0`, whatever the input winding (orientation fix-up
invariant). -/
theorem claim_C7_area_nonneg (c : List Vec3) (o : Vec3) (svd : SVDResult)
    (p : SimplePolygon) (h : simplePolygonMk c o svd = .ok p) :
    0 ≤ p.area := by
  unfold simplePolygonMk at h
  split at h
  · simp at h
  · simp only [Except.ok.injEq] at h
    subst h
    unfold SimplePolygon.area
    by_cases ha :
        area_2d_polygon (flatProject svd.u0 svd.u1 c o) < 0
    · simp only [if_pos ha, area_2d_polygon_map_swap2]
      linarith
    · simp only [if_neg ha]
      exact not_lt.mp ha

/-- Witness for C7 at a concrete input whose flattened frame is
negatively oriented, so the fix-up path is exercised. -/
theorem claim_C7_area_nonneg_witness :
    simplePolygonMk [((0:ℚ),0,0), ((1:ℚ),0,0), ((1:ℚ),1,0)] ((0:ℚ),0,0)
        (SVDResult.mk ((0:ℚ),1,0) ((1:ℚ),0,0) ((0:ℚ),0,1) 0) =
      .ok (SimplePolygon.mk [((0:ℚ),0,0), ((1:ℚ),0,0), ((1:ℚ),1,0)]
        ((0:ℚ),0,0) ((1:ℚ),0,0) ((0:ℚ),1,0) ((0:ℚ),0,1)
        [((0:ℚ),0), ((1:ℚ),0), ((1:ℚ),1)]) ∧
    0 ≤ (SimplePolygon.mk [((0:ℚ),0,0), ((1:ℚ),0,0), ((1:ℚ),1,0)]
        ((0:ℚ),0,0) ((1:ℚ),0,0) ((0:ℚ),1,0) ((0:ℚ),0,1)
        [((0:ℚ),0), ((1:ℚ),0), ((1:ℚ),1)]).area :=
  have hEq : simplePolygonMk [((0:ℚ),0,0), ((1:ℚ),0,0), ((1:ℚ),1,0)]
      ((0:ℚ),0,0) (SVDResult.mk ((0:ℚ),1,0) ((1:ℚ),0,0) ((0:ℚ),0,1) 0) =
      .ok (SimplePolygon.mk [((0:ℚ),0,0), ((1:ℚ),0,0), ((1:ℚ),1,0)]
        ((0:ℚ),0,0) ((1:ℚ),0,0) ((0:ℚ),1,0) ((0:ℚ),0,1)
        [((0:ℚ),0), ((1:ℚ),0), ((1:ℚ),1)]) := by
    norm_num [simplePolygonMk, flatProject, area_2d_polygon, shoelaceTerms,
      cross2, dot3, vsub3, swap2, cross, libroom_eps, Vec3.x, Vec3.y, Vec3.z]
  ⟨hEq, claim_C7_area_nonneg _ _ _ _ hEq⟩

theorem holeLoop_eq_holeScanSpec (g : GeomPrims) (p1 p2 : Vec3) (r : Int)
    (hs : List SimplePolygon) :
    holeLoop g p1 p2 r hs
      = holeScanSpec r (hs.map (fun h => h.intersection g p1 p2)) := by
  induction hs with
  | nil => rfl
  | cons h t ih =>
    simp only [holeLoop, holeScanSpec, List.map_cons, ih]

/-- C1: `PolygonWithHole::intersection` refines the specified hole
logic: a missing outer intersection gives `NONE`; a boundary-flagged
outer status (`≥ 2`) is returned unchanged; otherwise the holes are
tested in stored order, where the first status `0` or `1` yields `NONE`
immediately, the first status `≥ 2` is returned immediately, and the
outer status stands when no hole intercepts. -/
theorem claim_C1_hole_dispatch (g : GeomPrims) (pw : PolygonWithHole)
    (p1 p2 : Vec3) :
    pw.intersection g p1 p2 =
      pwhCombineSpec (pw.outer_polygon.intersection g p1 p2)
        (pw.inner_polygons.map (fun h => h.intersection g p1 p2)) := by
  by_cases h1 : pw.outer_polygon.intersection g p1 p2 = -1
  · simp [PolygonWithHole.intersection, pwhCombineSpec, h1]
  · by_cases h2 : pw.outer_polygon.intersection g p1 p2 ≥ 2
    · simp [PolygonWithHole.intersection, pwhCombineSpec, h1, h2]
    · simp [PolygonWithHole.intersection, pwhCombineSpec, h1, h2,
        holeLoop_eq_holeScanSpec]

/-- C4: `SimplePolygon::intersection` returns `NONE` when the
segment-plane primitive reports no intersection, returns `NONE` when
the projected intersection point is classified outside the 2D polygon
regardless of the plane status, and otherwise sets the `ENDPT` bit
(value 1) exactly when the plane intersection was at a segment endpoint
and the `BNDRY` bit (value 2) exactly when the 2D test reported
boundary, both bits possibly set at once. -/
theorem claim_C4_intersection_bits (g : GeomPrims) (poly : SimplePolygon)
    (p1 p2 : Vec3) :
    (planeRet g poly p1 p2 = -1 → poly.intersection g p1 p2 = -1) ∧
    (planeRet g poly p1 p2 ≠ -1 → insideRet g poly p1 p2 < 0 →
      poly.intersection g p1 p2 = -1) ∧
    (planeRet g poly p1 p2 ≠ -1 → ¬ insideRet g poly p1 p2 < 0 →
      poly.intersection g p1 p2 =
        (if planeRet g poly p1 p2 = 1 then 1 else 0) +
        (if insideRet g poly p1 p2 = 1 then 2 else 0)) := by
  unfold SimplePolygon.intersection
  unfold planeRet insideRet flatIntersectionOf planePoint
  refine ⟨fun h => by simp [h], fun h ho => by simp [h, ho], fun h ho => ?_⟩
  rw [if_neg h]
  rw [if_neg ho]
  by_cases hb :
      g.is_inside_2d_polygon
        (dot3 poly.basis0
          (vsub3 (g.intersection_3d_segment_plane p1 p2
            poly.origin poly.normal).2 poly.origin),
         dot3 poly.basis1
          (vsub3 (g.intersection_3d_segment_plane p1 p2
            poly.origin poly.normal).2 poly.origin))
        poly.flat_corners = 1 <;>
  by_cases he :
      (g.intersection_3d_segment_plane p1 p2 poly.origin poly.normal).1 = 1 <;>
  simp only [hb, he, if_pos, if_neg, if_true, if_false, not_false_iff,
    ite_true, ite_false, eq_self_iff_true, not_true] <;>
  simp [hb, he] <;> decide

/-- Witness for C4 with concrete primitives reporting an
endpoint-of-segment plane hit and a boundary point-in-polygon result:
the status combines to `3`. -/
theorem claim_C4_intersection_bits_witness :
    planeRet (GeomPrims.mk (fun _ _ _ _ => (1, ((0:ℚ),0,0)))
        (fun _ _ => 1))
        (SimplePolygon.mk [] ((0:ℚ),0,0) ((1:ℚ),0,0) ((0:ℚ),1,0)
          ((0:ℚ),0,1) []) ((0:ℚ),0,0) ((0:ℚ),0,1) ≠ -1 ∧
    ¬ insideRet (GeomPrims.mk (fun _ _ _ _ => (1, ((0:ℚ),0,0)))
        (fun _ _ => 1))
        (SimplePolygon.mk [] ((0:ℚ),0,0) ((1:ℚ),0,0) ((0:ℚ),1,0)
          ((0:ℚ),0,1) []) ((0:ℚ),0,0) ((0:ℚ),0,1) < 0 ∧
    SimplePolygon.intersection
        (GeomPrims.mk (fun _ _ _ _ => (1, ((0:ℚ),0,0))) (fun _ _ => 1))
        (SimplePolygon.mk [] ((0:ℚ),0,0) ((1:ℚ),0,0) ((0:ℚ),1,0)
          ((0:ℚ),0,1) []) ((0:ℚ),0,0) ((0:ℚ),0,1) =
      (if planeRet (GeomPrims.mk (fun _ _ _ _ => (1, ((0:ℚ),0,0)))
          (fun _ _ => 1))
          (SimplePolygon.mk [] ((0:ℚ),0,0) ((1:ℚ),0,0) ((0:ℚ),1,0)
            ((0:ℚ),0,1) []) ((0:ℚ),0,0) ((0:ℚ),0,1) = 1 then 1 else 0) +
      (if insideRet (GeomPrims.mk (fun _ _ _ _ => (1, ((0:ℚ),0,0)))
          (fun _ _ => 1))
          (SimplePolygon.mk [] ((0:ℚ),0,0) ((1:ℚ),0,0) ((0:ℚ),1,0)
            ((0:ℚ),0,1) []) ((0:ℚ),0,0) ((0:ℚ),0,1) = 1 then 2 else 0) :=
  have hp : planeRet (GeomPrims.mk (fun _ _ _ _ => (1, ((0:ℚ),0,0)))
      (fun _ _ => 1))
      (SimplePolygon.mk [] ((0:ℚ),0,0) ((1:ℚ),0,0) ((0:ℚ),1,0)
        ((0:ℚ),0,1) []) ((0:ℚ),0,0) ((0:ℚ),0,1) ≠ -1 := by
    simp [planeRet]
  have hi : ¬ insideRet (GeomPrims.mk (fun _ _ _ _ => (1, ((0:ℚ),0,0)))
      (fun _ _ => 1))
      (SimplePolygon.mk [] ((0:ℚ),0,0) ((1:ℚ),0,0) ((0:ℚ),1,0)
        ((0:ℚ),0,1) []) ((0:ℚ),0,0) ((0:ℚ),0,1) < 0 := by
    simp [insideRet]
  ⟨hp, hi, (claim_C4_intersection_bits _ _ _ _).2.2 hp hi⟩

theorem wallDistance_translate {d : ℕ} (w : Wall d) (p : Vecf d) (t : ℚ) :
    w.wallDistance (fun i => p i + 2 * t * w.normal i)
      = w.wallDistance p - 2 * t * dotf w.normal w.normal := by
  unfold Wall.wallDistance dotf
  rw [Finset.mul_sum, ← Finset.sum_sub_distrib]
  apply Finset.sum_congr rfl
  intro i _
  ring

/-- C8: for a wall with unit normal, the signed distance of the
reflected point is the negation of the signed distance of `p`, and
reflecting the reflected point returns `p` exactly: `reflect` is an
involution. -/
theorem claim_C8_reflect_involution {d : ℕ} (w : Wall d) (p : Vecf d)
    (hn : dotf w.normal w.normal = 1) :
    w.wallDistance (w.reflect p).2 = - w.wallDistance p ∧
    (w.reflect (w.reflect p).2).2 = p := by
  have h1 : w.wallDistance (w.reflect p).2 = - w.wallDistance p := by
    show w.wallDistance (fun i => p i + 2 * w.wallDistance p * w.normal i)
        = - w.wallDistance p
    rw [wallDistance_translate, hn]
    ring
  refine ⟨h1, ?_⟩
  funext i
  show (w.reflect p).2 i + 2 * w.wallDistance (w.reflect p).2 * w.normal i
      = p i
  rw [h1]
  show p i + 2 * w.wallDistance p * w.normal i
      + 2 * -w.wallDistance p * w.normal i = p i
  ring

/-- Witness for C8: a concrete one-dimensional wall with unit normal;
the reflected point of `p = 2` across the origin-anchored wall is
`-2` and reflecting twice recovers `p`. -/
theorem claim_C8_reflect_involution_witness :
    dotf (d := 1) (fun _ => 1) (fun _ => 1) = 1 ∧
    ((Wall.mk [] [] "" [] [] (fun _ => 1) (fun _ => 0) []).wallDistance
        (((Wall.mk (d := 1) [] [] "" [] [] (fun _ => 1) (fun _ => 0)
          []).reflect (fun _ => 2)).2)
      = - (Wall.mk (d := 1) [] [] "" [] [] (fun _ => 1) (fun _ => 0)
          []).wallDistance (fun _ => 2) ∧
     ((Wall.mk (d := 1) [] [] "" [] [] (fun _ => 1) (fun _ => 0)
        []).reflect (((Wall.mk (d := 1) [] [] "" [] [] (fun _ => 1)
          (fun _ => 0) []).reflect (fun _ => 2)).2)).2 = (fun _ => 2)) :=
  have hn : dotf (d := 1) (fun _ => 1) (fun _ => 1) = 1 := by
    simp [dotf]
  ⟨hn, claim_C8_reflect_involution
    (Wall.mk (d := 1) [] [] "" [] [] (fun _ => 1) (fun _ => 0) [])
    (fun _ => 2) hn⟩

/-- C10: the sign returned by `reflect(p)` is the negation of
`side(p)`: it is `1` exactly when `side` is `-1`, `-1` exactly when
`side` is `1`, and `0` exactly when `side` is `0`, because the internal
distance of `reflect` is the negation of the inner product of `side`
and both use the same `libroom_eps` gate. -/
theorem claim_C10_reflect_side_sign {d : ℕ} (w : Wall d) (p : Vecf d) :
    ((w.reflect p).1 = 1 ↔ w.side p = -1) ∧
    ((w.reflect p).1 = -1 ↔ w.side p = 1) ∧
    ((w.reflect p).1 = 0 ↔ w.side p = 0) := by
  have heps : (0 : ℚ) < libroom_eps := by norm_num [libroom_eps]
  have hip : dotf (fun i => p i - w.origin i) w.normal
      = - w.wallDistance p := by
    unfold Wall.wallDistance dotf
    rw [← Finset.sum_neg_distrib]
    apply Finset.sum_congr rfl
    intro i _
    ring
  have hr : (w.reflect p).1
      = if w.wallDistance p > libroom_eps then 1
        else if w.wallDistance p < -libroom_eps then -1 else 0 := rfl
  have hs : w.side p
      = if - w.wallDistance p > libroom_eps then 1
        else if - w.wallDistance p < -libroom_eps then -1 else 0 := by
    unfold Wall.side
    rw [hip]
  rw [hr, hs]
  by_cases h1 : w.wallDistance p > libroom_eps
  · have n1 : ¬ (- w.wallDistance p > libroom_eps) := by linarith
    have n2 : - w.wallDistance p < -libroom_eps := by linarith
    rw [if_pos h1, if_neg n1, if_pos n2]
    refine ⟨by simp, by simp, by simp⟩
  · by_cases h2 : w.wallDistance p < -libroom_eps
    · have n1 : - w.wallDistance p > libroom_eps := by linarith
      rw [if_neg h1, if_pos h2, if_pos n1]
      refine ⟨by simp, by simp, by simp⟩
    · have n1 : ¬ (- w.wallDistance p > libroom_eps) := by
        simp only [not_lt] at h2 ⊢
        linarith
      have n2 : ¬ (- w.wallDistance p < -libroom_eps) := by
        simp only [not_lt] at h1 ⊢
        linarith
      rw [if_neg h1, if_neg h2, if_neg n1, if_neg n2]
      refine ⟨by simp, by simp, by simp⟩

theorem getD_map_eq {α β : Type} (f : α → β) (l : List α) (i : ℕ)
    (h : i < l.length) (d1 : α) (d2 : β) :
    (l.map f).getD i d2 = f (l.getD i d1) := by
  induction l generalizing i with
  | nil => simp at h
  | cons a t ih =>
    cases i with
    | zero => rfl
    | succ n =>
      simp only [List.map_cons, List.getD_cons_succ]
      exact ih n (by simpa using h)

/-- C2 counterexample: the wall built from `absorption = [0]` has
`transmission = [1]` and `energy_reflection = [1]`, and at band 0 the
claimed invariant `transmission[0]^2 + energy_reflection[0] == 1` reads
`1^2 + 1 == 1`, which is false.  (What the construction does guarantee
is `transmission[i]^2 == energy_reflection[i]`.) -/
theorem claim_C2_counterexample :
    wallMk 1 [] (fun _ => 0) (fun _ => 0) [0] [0] "" =
      .ok (Wall.mk [0] [0] "" [1] [1] (fun _ => 0) (fun _ => 0) []) ∧
    ¬ ((1:ℝ)^2 + 1 = 1) := by
  constructor
  · simp [wallMk, wallInit, transmission_of, energy_reflection_of]
  · norm_num

/-- C2 amended: for every wall constructed with absorption `a` and
every band `i < a.length` with `a[i] ≤ 1`, the derived coefficients
satisfy `transmission[i] = sqrt(1 - a[i])` and
`energy_reflection[i] = 1 - a[i]`, and the invariant holding by
construction is `transmission[i]^2 = energy_reflection[i]`,
equivalently `transmission[i]^2 + absorption[i] = 1`. -/
theorem claim_C2_amended_coefficients (d : ℕ) (cs : List (Vecf d))
    (o n : Vecf d) (a s : List ℝ) (nm : String) (w : Wall d) (i : ℕ)
    (hw : wallMk d cs o n a s nm = .ok w) (hi : i < a.length)
    (ha : a.getD i 0 ≤ 1) :
    w.transmission.getD i 0 = Real.sqrt (1 - a.getD i 0) ∧
    w.energy_reflection.getD i 0 = 1 - a.getD i 0 ∧
    w.transmission.getD i 0 ^ 2 = w.energy_reflection.getD i 0 ∧
    w.transmission.getD i 0 ^ 2 + a.getD i 0 = 1 := by
  unfold wallMk wallInit at hw
  rcases Decidable.em (a.length ≠ s.length) with hlen | hlen
  · rw [if_pos hlen] at hw
    simp at hw
  · rw [if_neg hlen] at hw
    simp only [Except.ok.injEq] at hw
    subst hw
    have her : (energy_reflection_of a).getD i 0 = 1 - a.getD i 0 :=
      getD_map_eq _ a i hi 0 0
    have hilen : i < (energy_reflection_of a).length := by
      simpa [energy_reflection_of] using hi
    have htr : (transmission_of a).getD i 0
        = Real.sqrt (1 - a.getD i 0) := by
      unfold transmission_of
      rw [getD_map_eq Real.sqrt (energy_reflection_of a) i hilen 0 0, her]
    have hnn : (0:ℝ) ≤ 1 - a.getD i 0 := by linarith
    refine ⟨htr, her, ?_, ?_⟩
    · show (transmission_of a).getD i 0 ^ 2
          = (energy_reflection_of a).getD i 0
      rw [htr, her, Real.sq_sqrt hnn]
    · show (transmission_of a).getD i 0 ^ 2 + a.getD i 0 = 1
      rw [htr, Real.sq_sqrt hnn]
      ring

/-- Witness for the amended C2 at `absorption = [0]`, `scatter = [0]`,
band 0. -/
theorem claim_C2_amended_coefficients_witness :
    wallMk 1 [] (fun _ => 0) (fun _ => 0) [0] [0] "" =
      .ok (Wall.mk [0] [0] "" (transmission_of [0])
        (energy_reflection_of [0]) (fun _ => 0) (fun _ => 0) []) ∧
    0 < ([(0:ℝ)]).length ∧ ([(0:ℝ)]).getD 0 0 ≤ 1 ∧
    ((transmission_of [0]).getD 0 0
        = Real.sqrt (1 - ([(0:ℝ)]).getD 0 0) ∧
     (energy_reflection_of [0]).getD 0 0 = 1 - ([(0:ℝ)]).getD 0 0 ∧
     (transmission_of [0]).getD 0 0 ^ 2
        = (energy_reflection_of [0]).getD 0 0 ∧
     (transmission_of [0]).getD 0 0 ^ 2 + ([(0:ℝ)]).getD 0 0 = 1) :=
  have hw : wallMk 1 [] (fun _ => 0) (fun _ => 0) [0] [0] "" =
      .ok (Wall.mk [0] [0] "" (transmission_of [0])
        (energy_reflection_of [0]) (fun _ => 0) (fun _ => 0) []) := by
    simp [wallMk, wallInit]
  have hi : 0 < ([(0:ℝ)]).length := by simp
  have ha : ([(0:ℝ)]).getD 0 0 ≤ 1 := by norm_num
  ⟨hw, hi, ha,
   claim_C2_amended_coefficients 1 [] (fun _ => 0) (fun _ => 0) [0] [0] ""
     (Wall.mk [0] [0] "" (transmission_of [0]) (energy_reflection_of [0])
       (fun _ => 0) (fun _ => 0) []) 0 hw hi ha⟩

/-- C6: wall construction, in any dimension, fails exactly when the
absorption and scatter coefficient sequences have different lengths;
on success the wall stores the full absorption and scatter sequences
(no truncation) and the derived per-band arrays have the same length. -/
theorem claim_C6_coefficient_length_gate (d : ℕ) (cs : List (Vecf d))
    (o n : Vecf d) (a s : List ℝ) (nm : String) :
    ((∃ e, wallMk d cs o n a s nm = .error e) ↔ a.length ≠ s.length) ∧
    (∀ w, wallMk d cs o n a s nm = .ok w →
      w.absorption = a ∧ w.scatter = s ∧
      w.energy_reflection.length = a.length ∧
      w.transmission.length = a.length) := by
  constructor
  · constructor
    · rintro ⟨e, he⟩
      by_contra hlen
      unfold wallMk wallInit at he
      rw [if_neg (fun hc => hc hlen)] at he
      simp at he
    · intro hlen
      exact ⟨_, by unfold wallMk wallInit; rw [if_pos hlen]⟩
  · intro w hw
    unfold wallMk wallInit at hw
    rcases Decidable.em (a.length ≠ s.length) with hlen | hlen
    · rw [if_pos hlen] at hw
      simp at hw
    · rw [if_neg hlen] at hw
      simp only [Except.ok.injEq] at hw
      subst hw
      refine ⟨rfl, rfl, ?_, ?_⟩
      · simp [energy_reflection_of]
      · simp [transmission_of, energy_reflection_of]

/-- Witness for C6: equal-length inputs succeed without truncation,
and mismatched lengths (3 absorption bands vs 2 scatter bands) fail. -/
theorem claim_C6_coefficient_length_gate_witness :
    wallMk 1 [] (fun _ => 0) (fun _ => 0) [0] [0] "" =
      .ok (Wall.mk [0] [0] "" (transmission_of [0])
        (energy_reflection_of [0]) (fun _ => 0) (fun _ => 0) []) ∧
    ((Wall.mk (d := 1) [0] [0] "" (transmission_of [0])
        (energy_reflection_of [0]) (fun _ => 0) (fun _ => 0)
        []).absorption = [0] ∧
     (Wall.mk (d := 1) [0] [0] "" (transmission_of [0])
        (energy_reflection_of [0]) (fun _ => 0) (fun _ => 0)
        []).scatter = [0] ∧
     (Wall.mk (d := 1) [0] [0] "" (transmission_of [0])
        (energy_reflection_of [0]) (fun _ => 0) (fun _ => 0)
        []).energy_reflection.length = ([(0:ℝ)]).length ∧
     (Wall.mk (d := 1) [0] [0] "" (transmission_of [0])
        (energy_reflection_of [0]) (fun _ => 0) (fun _ => 0)
        []).transmission.length = ([(0:ℝ)]).length) ∧
    (∃ e, wallMk 1 [] (fun _ => 0) (fun _ => 0) [0, 0, 0] [0, 0] ""
        = .error e) :=
  have hw : wallMk 1 [] (fun _ => 0) (fun _ => 0) [0] [0] "" =
      .ok (Wall.mk [0] [0] "" (transmission_of [0])
        (energy_reflection_of [0]) (fun _ => 0) (fun _ => 0) []) := by
    simp [wallMk, wallInit]
  ⟨hw,
   (claim_C6_coefficient_length_gate 1 [] (fun _ => 0) (fun _ => 0)
      [0] [0] "").2 _ hw,
   (claim_C6_coefficient_length_gate 1 [] (fun _ => 0) (fun _ => 0)
      [0, 0, 0] [0, 0] "").1.mpr (by simp)⟩

theorem holesAllMatch_iff_forall₂ (xs ys : List SimplePolygon)
    (hlen : xs.length = ys.length) :
    holesAllMatch xs ys = true ↔
      List.Forall₂ (fun a b => a.same_as (.simple b) = true) xs ys := by
  induction xs generalizing ys with
  | nil =>
    cases ys with
    | nil => simp [holesAllMatch]
    | cons b u => simp at hlen
  | cons a t ih =>
    cases ys with
    | nil => simp at hlen
    | cons b u =>
      have hlen2 : t.length = u.length := by simpa using hlen
      simp only [holesAllMatch, List.zip_cons_cons, List.all_cons,
        Bool.and_eq_true, List.forall₂_cons]
      rw [show (((t.zip u).all
        (fun q => q.1.same_as (.simple q.2))) = true)
          = (holesAllMatch t u = true) from rfl]
      rw [ih u hlen2]

/-- C9: `same_as` is gated by dynamic type — a `SimplePolygon` never
equals a `PolygonWithHole` in either direction; two `SimplePolygon`s
are `same_as` exactly when they have the same number of corners and the
sum of absolute coordinate differences is exactly zero; two
`PolygonWithHole`s additionally require matching outer polygons, equal
hole counts and index-aligned hole equality. -/
theorem claim_C9_same_as_structure :
    (∀ (s : SimplePolygon) (q : PolygonWithHole),
      Polygon.same_as (.simple s) (.withHole q) = false ∧
      Polygon.same_as (.withHole q) (.simple s) = false) ∧
    (∀ s t : SimplePolygon,
      (Polygon.same_as (.simple s) (.simple t) = true ↔
        s.corners.length = t.corners.length ∧
        sumAbsDiff s.corners t.corners = 0)) ∧
    (∀ p q : PolygonWithHole,
      (Polygon.same_as (.withHole p) (.withHole q) = true ↔
        Polygon.same_as (.simple p.outer_polygon)
            (.simple q.outer_polygon) = true ∧
        p.inner_polygons.length = q.inner_polygons.length ∧
        List.Forall₂ (fun a b => a.same_as (.simple b) = true)
          p.inner_polygons q.inner_polygons)) := by
  have part2 : ∀ s t : SimplePolygon,
      (Polygon.same_as (.simple s) (.simple t) = true ↔
        s.corners.length = t.corners.length ∧
        sumAbsDiff s.corners t.corners = 0) := by
    intro s t
    simp only [Polygon.same_as, SimplePolygon.same_as]
    by_cases hlen : s.corners.length = t.corners.length
    · rw [if_neg (fun hc => hc hlen)]
      simp [hlen]
    · rw [if_pos hlen]
      simp [hlen]
  refine ⟨?_, part2, ?_⟩
  · intro s q
    exact ⟨rfl, rfl⟩
  · intro p q
    simp only [Polygon.same_as, PolygonWithHole.same_as]
    cases houter : p.outer_polygon.same_as (.simple q.outer_polygon) with
    | false =>
      simp
    | true =>
      by_cases hlen :
          p.inner_polygons.length = q.inner_polygons.length
      · rw [if_neg (by simp), if_neg (fun hc => hc hlen)]
        rw [holesAllMatch_iff_forall₂ _ _ hlen]
        simp [hlen]
      · rw [if_neg (by simp), if_pos hlen]
        simp [hlen]

/-- C3 counterexample: a concrete corner set whose flattened frame has
negative signed area; the fix-up is taken, and the stored
`flat_corners` are the coordinate-swapped projected corners
`[(0,0),(1,0),(1,1)]`, which differ from the column-order reversal
`[(1,1),(0,1),(0,0)]` asserted by the claim. -/
theorem claim_C3_counterexample :
    area_2d_polygon (flatProject ((0:ℚ),1,0) ((1:ℚ),0,0)
      [((0:ℚ),0,0), ((1:ℚ),0,0), ((1:ℚ),1,0)] ((0:ℚ),0,0)) < 0 ∧
    simplePolygonMk [((0:ℚ),0,0), ((1:ℚ),0,0), ((1:ℚ),1,0)] ((0:ℚ),0,0)
        (SVDResult.mk ((0:ℚ),1,0) ((1:ℚ),0,0) ((0:ℚ),0,1) 0) =
      .ok (SimplePolygon.mk [((0:ℚ),0,0), ((1:ℚ),0,0), ((1:ℚ),1,0)]
        ((0:ℚ),0,0) ((1:ℚ),0,0) ((0:ℚ),1,0) ((0:ℚ),0,1)
        [((0:ℚ),0), ((1:ℚ),0), ((1:ℚ),1)]) ∧
    ([((0:ℚ),0), ((1:ℚ),0), ((1:ℚ),1)] : List Vec2) ≠
      (flatProject ((0:ℚ),1,0) ((1:ℚ),0,0)
        [((0:ℚ),0,0), ((1:ℚ),0,0), ((1:ℚ),1,0)] ((0:ℚ),0,0)).reverse := by
  refine ⟨?_, ?_, ?_⟩
  · norm_num [flatProject, area_2d_polygon, shoelaceTerms, cross2, dot3,
      vsub3, Vec3.x, Vec3.y, Vec3.z]
  · norm_num [simplePolygonMk, flatProject, area_2d_polygon, shoelaceTerms,
      cross2, dot3, vsub3, swap2, cross, libroom_eps, Vec3.x, Vec3.y, Vec3.z]
  · norm_num [flatProject, dot3, vsub3, Vec3.x, Vec3.y, Vec3.z]

/-- C3 amended: when the signed area computed in the flattened frame is
negative, the two basis vectors are swapped and the two coordinate rows
of `flat_corners` are exchanged (each flat corner's coordinates are
swapped, matching the swapped basis), and the normal is then recomputed
as the cross product of the swapped basis vectors, so that `normal`,
`basis[0]`, `basis[1]` form a consistent right-handed frame. -/
theorem claim_C3_amended_orientation_fixup (c : List Vec3) (o : Vec3)
    (svd : SVDResult) (hs : ¬ svd.s2 > libroom_eps)
    (ha : area_2d_polygon (flatProject svd.u0 svd.u1 c o) < 0) :
    simplePolygonMk c o svd =
      .ok (SimplePolygon.mk c o svd.u1 svd.u0 (cross svd.u1 svd.u0)
        ((flatProject svd.u0 svd.u1 c o).map swap2)) := by
  unfold simplePolygonMk
  rw [if_neg hs]
  simp only [if_pos ha]

/-- Witness for the amended C3 at the concrete negatively-oriented
corner set of the counterexample. -/
theorem claim_C3_amended_orientation_fixup_witness :
    (¬ (SVDResult.mk ((0:ℚ),1,0) ((1:ℚ),0,0) ((0:ℚ),0,1) 0).s2
        > libroom_eps) ∧
    area_2d_polygon (flatProject ((0:ℚ),1,0) ((1:ℚ),0,0)
      [((0:ℚ),0,0), ((1:ℚ),0,0), ((1:ℚ),1,0)] ((0:ℚ),0,0)) < 0 ∧
    simplePolygonMk [((0:ℚ),0,0), ((1:ℚ),0,0), ((1:ℚ),1,0)] ((0:ℚ),0,0)
        (SVDResult.mk ((0:ℚ),1,0) ((1:ℚ),0,0) ((0:ℚ),0,1) 0) =
      .ok (SimplePolygon.mk [((0:ℚ),0,0), ((1:ℚ),0,0), ((1:ℚ),1,0)]
        ((0:ℚ),0,0) ((1:ℚ),0,0) ((0:ℚ),1,0)
        (cross ((1:ℚ),0,0) ((0:ℚ),1,0))
        ((flatProject ((0:ℚ),1,0) ((1:ℚ),0,0)
          [((0:ℚ),0,0), ((1:ℚ),0,0), ((1:ℚ),1,0)]
          ((0:ℚ),0,0)).map swap2)) :=
  have h1 : ¬ (SVDResult.mk ((0:ℚ),1,0) ((1:ℚ),0,0) ((0:ℚ),0,1) 0).s2
      > libroom_eps := by norm_num [libroom_eps]
  have h2 : area_2d_polygon (flatProject ((0:ℚ),1,0) ((1:ℚ),0,0)
      [((0:ℚ),0,0), ((1:ℚ),0,0), ((1:ℚ),1,0)] ((0:ℚ),0,0)) < 0 := by
    norm_num [flatProject, area_2d_polygon, shoelaceTerms, cross2, dot3,
      vsub3, Vec3.x, Vec3.y, Vec3.z]
  ⟨h1, h2, claim_C3_amended_orientation_fixup
    [((0:ℚ),0,0), ((1:ℚ),0,0), ((1:ℚ),1,0)] ((0:ℚ),0,0)
    (SVDResult.mk ((0:ℚ),1,0) ((1:ℚ),0,0) ((0:ℚ),0,1) 0) h1 h2⟩

end Libroom
